import Mathlib

/-!
Shallow embedding of `getDataCVM.py` (class `DataCVM`): the catalog
discoverer `find_dataset`, the batched retriever `download_data`, and the
facade `get_data`.  Python strings are modelled as Lean `String`s, Python
`dict` as an insertion-ordered association list, `pandas.DataFrame` as a
header plus a list of rows, and the network / ZIP layer as an oracle
`String → HttpResult` giving, for each URL, either a transport error, a
non-ZIP body, or a ZIP whose members are already-decoded stripped lines
(the ISO-8859-1 per-line decode never fails, so it is absorbed into the
oracle).  Exceptions are modelled with `Except` / `Option`.
-/

namespace CVM

/-- Python `pre in s` is substring containment; `s.startswith(pre)` etc. -/
def pyStartsWith (s pre : String) : Bool := pre.data.isPrefixOf s.data

def pyEndsWith (s suf : String) : Bool := suf.data.isSuffixOf s.data

def pyContains (s sub : String) : Bool := decide (sub.data <:+: s.data)

/-- Index of the first occurrence of `sub` in the list, if any
(Python `str.find` semantics, including `"".find("") = 0`). -/
def firstOccurIdx (sub : List Char) : List Char → Option Nat
  | [] => if sub.isPrefixOf ([] : List Char) then some 0 else none
  | c :: rest =>
    if sub.isPrefixOf (c :: rest) then some 0
    else (firstOccurIdx sub rest).map (· + 1)

/-- Python `s.find(sub)`: first index of `sub` or `-1`. -/
def pyFind (s sub : String) : Int :=
  match firstOccurIdx sub.data s.data with
  | some n => (n : Int)
  | none => -1

/-- Python `s[:i]`, including the negative-index convention
(`s[:-1]` drops the final character). -/
def pySliceTo (s : String) (i : Int) : String :=
  if 0 ≤ i then String.mk (s.data.take i.toNat)
  else String.mk (s.data.take ((s.data.length : Int) + i).toNat)

/-- Python `s.removeprefix(pre)`. -/
def pyRemovePrefix (s pre : String) : String :=
  if pre.data.isPrefixOf s.data then String.mk (s.data.drop pre.data.length) else s

/-- Python `s.removesuffix(suf)`. -/
def pyRemoveSuffix (s suf : String) : String :=
  if suf.data.isSuffixOf s.data then
    String.mk (s.data.take (s.data.length - suf.data.length))
  else s

/-- Fuelled worker for `pyReplace`; fuel `s.length` suffices because every
step consumes at least one character of the input when `old` is nonempty. -/
def replaceFuel (old new : List Char) : Nat → List Char → List Char
  | 0, s => s
  | _ + 1, [] => []
  | fuel + 1, c :: rest =>
    if old ≠ [] ∧ old.isPrefixOf (c :: rest) = true then
      new ++ replaceFuel old new fuel ((c :: rest).drop old.length)
    else c :: replaceFuel old new fuel rest

/-- Python `s.replace(old, new)` for a nonempty pattern `old` (the source
only ever replaces the nonempty literal `"(anteriormente"`). -/
def pyReplace (s old new : String) : String :=
  String.mk (replaceFuel old.data new.data s.data.length s.data)

/-- Python `s.split(";")` on the character list: always at least one field. -/
def splitFields : List Char → List (List Char)
  | [] => [[]]
  | c :: rest =>
    match splitFields rest with
    | [] => [[]]
    | f :: fs => if c = ';' then [] :: f :: fs else (c :: f) :: fs

def pySplitSemi (s : String) : List String := (splitFields s.data).map String.mk

/-- Python `template.format(year=year)` for the templates of this program,
whose only field is `{year}`. -/
def formatYear (template : String) (year : Int) : String :=
  pyReplace template "{year}" (toString year)

/-- A `pandas.DataFrame` as produced by this program: a header row of
column names and the data rows; row index `i` is the list position
(`ignore_index=True` resets indices, so positions are the indices). -/
structure Table where
  header : List String
  rows : List (List String)
deriving DecidableEq, Repr

/-- `pd.DataFrame(data=lines[1:], columns=lines[0])` after splitting each
stripped line on `";"`: fails (raising, caught by the generic handler)
when there is no line at all (`lines[0]` is an `IndexError`) or when some
data row's width differs from the header's (pandas `ValueError`). -/
def parseLines (lines : List String) : Option Table :=
  match lines.map pySplitSemi with
  | [] => none
  | header :: dataRows =>
    if dataRows.all (fun r => r.length = header.length) then
      some ⟨header, dataRows⟩
    else none

/-- The body returned for an archive URL: either not a ZIP
(`zipfile.BadZipFile`) or a ZIP given by its member files, each member
carrying its decoded, stripped lines. -/
inductive Body where
  | notZip : Body
  | zip : List (String × List String) → Body
deriving DecidableEq

/-- Outcome of `requests.get` + `raise_for_status`: a
`requests.exceptions.RequestException` (connection error, timeout,
non-2xx status) or a body. -/
inductive HttpResult where
  | requestError : String → HttpResult
  | success : Body → HttpResult
deriving DecidableEq

/-- One iteration of the `download_data` loop for a single year: the
optional per-year table (`none` when any exception was caught) and the
one line printed for that year. -/
def yearResult (fetch : String → HttpResult)
    (base_url zip_template csv_template : String) (year : Int) :
    Option Table × String :=
  let url := base_url ++ formatYear zip_template year
  match fetch url with
  | .requestError e =>
    (none, "Error downloading data for year " ++ toString year ++ (": " ++ e))
  | .success .notZip =>
    (none, "Error unzipping file for year " ++ toString year ++ ".")
  | .success (.zip members) =>
    let csv_filename := formatYear csv_template year
    match members.find? (fun m => m.1 == csv_filename) with
    | none =>
      (none, "Unexpected error for year " ++ toString year ++ ": KeyError")
    | some m =>
      match parseLines m.2 with
      | some t =>
        (some t, "Finished reading data for year " ++ toString year ++ ".")
      | none =>
        (none, "Unexpected error for year " ++ toString year ++ ": ValueError")

/-- Column union used by `pd.concat` when the frames' columns differ:
first-appearance order, duplicates of already-present names dropped. -/
def unionHeaders (hs : List (List String)) : List String :=
  hs.foldl (fun acc h => acc ++ h.filter (fun c => !acc.contains c)) []

/-- Reindexing of one row onto the unioned columns (missing columns become
`"NaN"`, pandas' fill value rendered as a string in this model). -/
def alignRow (oldHeader newHeader : List String) (row : List String) :
    List String :=
  newHeader.map (fun c =>
    match oldHeader.findIdx? (fun d => d == c) with
    | some i => row.getD i "NaN"
    | none => "NaN")

/-- `pd.concat(data_list, ignore_index=True)` (and `pd.DataFrame()` for the
empty list): identical headers are stacked directly; otherwise rows are
aligned onto the unioned columns.  Cross-year header drift is left
undefined by the source; this model chooses pandas' outer alignment. -/
def concatTables : List Table → Table
  | [] => ⟨[], []⟩
  | t :: rest =>
    if rest.all (fun u => u.header == t.header) then
      ⟨t.header, ((t :: rest).map Table.rows).flatten⟩
    else
      let h := unionHeaders ((t :: rest).map Table.header)
      ⟨h, (t :: rest).flatMap (fun u => u.rows.map (alignRow u.header h))⟩

/-- Python `range(start, end)` over `Int`. -/
def intRange (start stop : Int) : List Int :=
  (List.range (stop - start).toNat).map (fun i => start + Int.ofNat i)

/-- Observable outcome of one `download_data` call: the returned table, the
per-year printed lines, and the URLs passed to `requests.get` (network
activity). -/
structure RunResult where
  table : Table
  logs : List String
  fetched : List String
deriving DecidableEq

/-- `DataCVM.download_data`: iterate the years in ascending order, fetch
one archive per year, keep the tables of the years whose processing did
not raise, and concatenate them (empty `DataFrame` when none did). -/
def download_data (fetch : String → HttpResult) (start stop : Int)
    (base_url zip_template csv_template : String) : RunResult :=
  let years := intRange start stop
  let results := years.map (yearResult fetch base_url zip_template csv_template)
  { table := concatTables (results.filterMap Prod.fst)
    logs := results.map Prod.snd
    fetched := years.map (fun y => base_url ++ formatYear zip_template y) }

/-- The two error kinds `DataCVM.get_data` raises before any download. -/
inductive GetDataError where
  | attributeError : String → GetDataError
  | valueError : String → GetDataError
deriving DecidableEq

/-- Python `", ".join` of the `repr`s inside `str(list_of_keys)`. -/
def quoteKeys : List String → String
  | [] => ""
  | [k] => "\x27" ++ k ++ "\x27"
  | k :: ks => "\x27" ++ k ++ "\x27, " ++ quoteKeys ks

/-- Python `str(list(self.datasets.keys()))`. -/
def pyListRepr (ks : List String) : String := "[" ++ quoteKeys ks ++ "]"

/-- The `ValueError` message of `get_data` for an unknown dataset key. -/
def notFoundMsg (dataset : String) (keys : List String) : String :=
  "Dataset \x27" ++ dataset ++ "\x27 not found. Choose from: " ++ pyListRepr keys

/-- `DataCVM.get_data`: `datasets = none` models a class without the
`datasets` attribute.  Returns the outcome together with the list of URLs
fetched (empty in both error branches: the `raise` happens before any
network call). -/
def get_data (fetch : String → HttpResult)
    (datasets : Option (List (String × String)))
    (base_url zip_template dataset : String) (start stop : Int) :
    Except GetDataError RunResult × List String :=
  match datasets with
  | none =>
    (.error (.attributeError "Attribute \x27datasets\x27 not defined in the class."), [])
  | some ds =>
    match ds.find? (fun p => p.1 == dataset) with
    | none =>
      (.error (.valueError (notFoundMsg dataset (ds.map Prod.fst))), [])
    | some p =>
      let r := download_data fetch start stop base_url zip_template p.2
      (.ok r, r.fetched)

/-- One `<li>` of the listing page: whether it contains a `<strong>` and
its flattened text (`li.get_text(strip=True)`). -/
structure LiItem where
  hasStrong : Bool
  text : String
deriving DecidableEq

/-- The one uncaught error `find_dataset` can hit in this model: the
`UnboundLocalError` of using `delimiter` when neither branch assigned it. -/
inductive PyError where
  | unboundLocal : PyError
deriving DecidableEq

/-- Lines 11-14: `delimiter` is assigned only when `"fca"` or `"fre"`
occurs in `data_type`; otherwise it stays unbound. -/
def chooseDelimiter (data_type : String) : Option String :=
  if pyContains data_type "fca" then some "("
  else if pyContains data_type "fre" then some ":"
  else none

/-- Python `dict` assignment `d[k] = v` on an insertion-ordered
association list: an existing key keeps its position and gets the new
value; a new key is appended. -/
def dictInsert (d : List (String × String)) (k v : String) :
    List (String × String) :=
  if d.any (fun p => p.1 == k) then
    d.map (fun p => if p.1 == k then (k, v) else p)
  else d ++ [(k, v)]

/-- Lines 22-30: truncate at `text.find(delimiter)`, strip the
`"(anteriormente"` artifact, then classify into key and template. -/
def classifyItem (data_type delim : String) (d : List (String × String))
    (text0 : String) : List (String × String) :=
  let upper_limit := pyFind text0 delim
  let text := pyReplace (pySliceTo text0 upper_limit) "(anteriormente" ""
  if pyContains text data_type then
    dictInsert d (pyRemovePrefix text (data_type ++ "_")) (text ++ "_{year}.csv")
  else
    let key := pyRemovePrefix text (pyRemoveSuffix data_type "aberta")
    dictInsert d key (data_type ++ "_" ++ key ++ "_{year}.csv")

/-- The body of the `for li in li_strong` loop for one item. -/
def processItem (data_type : String) (delim? : Option String)
    (d : List (String × String)) (it : LiItem) :
    Except PyError (List (String × String)) :=
  if pyStartsWith it.text (pyRemoveSuffix data_type "aberta") then
    match delim? with
    | none => .error .unboundLocal
    | some delim => .ok (classifyItem data_type delim d it.text)
  else .ok d

/-- The scraping loop of `find_dataset` over the `<li>`s that contain a
`<strong>`. -/
def scrapeItems (data_type : String) (page : List LiItem) :
    Except PyError (List (String × String)) :=
  (page.filter (fun it => it.hasStrong)).foldlM
    (processItem data_type (chooseDelimiter data_type)) []

/-- `DataCVM.find_dataset` on an already-fetched, already-parsed listing
page (the page fetch itself is outside this model and its failure
propagates uncaught per the source). -/
def find_dataset (data_type : String) (page : List LiItem) :
    Except PyError (List (String × String)) :=
  (scrapeItems data_type page).map
    (fun d => dictInsert d "original" (data_type ++ "_{year}.csv"))

/-- Comparison definition following the spec's words for C7: "truncating
its text at the first occurrence of the family delimiter" (the text is
left whole when the delimiter does not occur).  To be compared with the
source's `pySliceTo text (pyFind text delim)`. -/
def specTruncAtFirst (s delim : String) : String :=
  match firstOccurIdx delim.data s.data with
  | some n => String.mk (s.data.take n)
  | none => s

/-- Concrete network fixture: year 2020 serves a valid archive with a
3-row, 2-column CSV; every other URL times out (the spec's §8 scenario). -/
def exFetch : String → HttpResult := fun url =>
  if url = "B/doc_2020.zip" then
    .success (.zip [("doc_2020.csv", ["a;b", "1;2", "3;4", "5;6"])])
  else .requestError "timeout"

/-- Concrete network fixture where every request fails. -/
def fetchAllFail : String → HttpResult := fun _ => .requestError "timeout"

/-! ### Helper lemmas -/

theorem splitFields_ne_nil : ∀ l : List Char, splitFields l ≠ []
  | [] => by simp [splitFields]
  | c :: rest => by
    unfold splitFields
    cases h : splitFields rest with
    | nil => simp
    | cons f fs => dsimp only; split <;> simp

theorem pySplitSemi_ne_nil (s : String) : pySplitSemi s ≠ [] := by
  unfold pySplitSemi
  simp [List.map_eq_nil_iff, splitFields_ne_nil]

theorem parseLines_header_ne_nil {lines : List String} {t : Table}
    (h : parseLines lines = some t) : t.header ≠ [] := by
  unfold parseLines at h
  cases hl : lines with
  | nil => rw [hl] at h; simp at h
  | cons l0 ls =>
    rw [hl] at h
    simp only [List.map_cons] at h
    split at h
    · cases h
      exact pySplitSemi_ne_nil l0
    · cases h

theorem yearResult_some_header_ne_nil {fetch : String → HttpResult}
    {b z c : String} {y : Int} {t : Table}
    (h : (yearResult fetch b z c y).fst = some t) : t.header ≠ [] := by
  simp only [yearResult] at h
  cases hfr : fetch (b ++ formatYear z y) with
  | requestError e => rw [hfr] at h; simp at h
  | success body =>
    rw [hfr] at h
    cases body with
    | notZip => simp at h
    | zip members =>
      simp only at h
      cases hfind : members.find? (fun m => m.1 == formatYear c y) with
      | none => rw [hfind] at h; simp at h
      | some m =>
        rw [hfind] at h
        simp only at h
        cases hp : parseLines m.2 with
        | none => rw [hp] at h; simp at h
        | some t' =>
          rw [hp] at h
          simp only [Option.some.injEq] at h
          exact h ▸ parseLines_header_ne_nil hp

theorem foldl_union_ne_nil (hs : List (List String)) (acc : List String)
    (ha : acc ≠ []) :
    hs.foldl (fun acc h => acc ++ h.filter (fun c => !acc.contains c)) acc ≠ [] := by
  induction hs generalizing acc with
  | nil => simpa using ha
  | cons h hs ih =>
    simp only [List.foldl_cons]
    exact ih _ (fun hcon => ha (List.append_eq_nil.mp hcon).1)

theorem unionHeaders_cons_ne_nil {h : List String} (hs : List (List String))
    (hh : h ≠ []) : unionHeaders (h :: hs) ≠ [] := by
  unfold unionHeaders
  simp only [List.foldl_cons]
  apply foldl_union_ne_nil
  intro hcon
  rw [List.nil_append] at hcon
  apply hh
  have : ∀ x ∈ h, (fun c => !([] : List String).contains c) x = true := by simp
  rw [← List.filter_eq_self.mpr this]
  exact hcon

theorem concatTables_cons_header_ne_nil {t : Table} (ts : List Table)
    (h : t.header ≠ []) : (concatTables (t :: ts)).header ≠ [] := by
  simp only [concatTables]
  split
  · simpa using h
  · simpa using unionHeaders_cons_ne_nil (ts.map Table.header) h

theorem concatTables_rows_length (ts : List Table) :
    (concatTables ts).rows.length = (ts.map (fun t => t.rows.length)).sum := by
  cases ts with
  | nil => simp [concatTables]
  | cons t rest =>
    simp only [concatTables]
    split
    · simp [List.length_flatten, List.map_map, Function.comp_def]
    · simp [List.length_flatMap, Function.comp_def]

theorem download_data_table (fetch : String → HttpResult) (s e : Int)
    (b z c : String) :
    (download_data fetch s e b z c).table =
      concatTables ((intRange s e).filterMap
        (fun y => (yearResult fetch b z c y).fst)) := by
  simp only [download_data, List.filterMap_map]
  rfl

theorem download_data_logs (fetch : String → HttpResult) (s e : Int)
    (b z c : String) :
    (download_data fetch s e b z c).logs =
      (intRange s e).map (fun y => (yearResult fetch b z c y).snd) := by
  simp only [download_data, List.map_map]
  rfl

theorem firstOccurIdx_exists_of_substr {sub l : List Char} (h : sub <:+: l) :
    ∃ n, firstOccurIdx sub l = some n := by
  induction l with
  | nil =>
    refine ⟨0, ?_⟩
    have : sub = [] := List.eq_nil_of_infix_nil h
    simp [firstOccurIdx, this, List.isPrefixOf_iff_prefix]
  | cons c rest ih =>
    by_cases hp : sub.isPrefixOf (c :: rest) = true
    · exact ⟨0, by simp [firstOccurIdx, hp]⟩
    · have hinf : sub <:+: rest := by
        rcases List.infix_cons_iff.mp h with hpre | hres
        · exact absurd (List.isPrefixOf_iff_prefix.mpr hpre) hp
        · exact hres
      obtain ⟨n, hn⟩ := ih hinf
      exact ⟨n + 1, by simp [firstOccurIdx, hp, hn]⟩

theorem substr_of_firstOccurIdx_some {sub l : List Char} {n : Nat}
    (h : firstOccurIdx sub l = some n) : sub <:+: l := by
  induction l generalizing n with
  | nil =>
    simp only [firstOccurIdx] at h
    split at h
    · rename_i hp
      exact (List.isPrefixOf_iff_prefix.mp hp).isInfix
    · cases h
  | cons c rest ih =>
    simp only [firstOccurIdx] at h
    split at h
    · rename_i hp
      exact (List.isPrefixOf_iff_prefix.mp hp).isInfix
    · cases hrec : firstOccurIdx sub rest with
      | none => rw [hrec] at h; cases h
      | some m => exact List.infix_cons (ih hrec)

theorem pyFind_of_not_contains {s sub : String}
    (h : pyContains s sub = false) : pyFind s sub = -1 := by
  unfold pyFind
  cases hfo : firstOccurIdx sub.data s.data with
  | none => rfl
  | some n =>
    exfalso
    have : pyContains s sub = true := by
      unfold pyContains
      exact decide_eq_true (substr_of_firstOccurIdx_some hfo)
    rw [this] at h
    cases h

theorem pySliceTo_neg_one (s : String) :
    pySliceTo s (-1) = String.mk s.data.dropLast := by
  unfold pySliceTo
  rw [if_neg (by omega)]
  rw [List.dropLast_eq_take]
  congr 2
  omega

theorem pySliceTo_trunc_of_contains {s sub : String}
    (h : pyContains s sub = true) :
    pySliceTo s (pyFind s sub) = specTruncAtFirst s sub := by
  have hinf : sub.data <:+: s.data := of_decide_eq_true h
  obtain ⟨n, hn⟩ := firstOccurIdx_exists_of_substr hinf
  unfold pySliceTo pyFind specTruncAtFirst
  rw [hn]
  simp

theorem foldlM_processItem_no_qualify (dt : String) (delim? : Option String) :
    ∀ (l : List LiItem) (acc : List (String × String)),
      (∀ it ∈ l, pyStartsWith it.text (pyRemoveSuffix dt "aberta") = false) →
      l.foldlM (processItem dt delim?) acc = .ok acc := by
  intro l
  induction l with
  | nil => intro acc _; rfl
  | cons a l ih =>
    intro acc hno
    rw [List.foldlM_cons]
    have ha : processItem dt delim? acc a = .ok acc := by
      unfold processItem
      rw [hno a (by simp)]
      simp
    rw [ha]
    exact ih acc (fun it hit => hno it (by simp [hit]))

theorem find_dataset_no_qualify (dt : String) (page : List LiItem)
    (hno : ∀ it ∈ page, it.hasStrong = true →
      pyStartsWith it.text (pyRemoveSuffix dt "aberta") = false) :
    find_dataset dt page = .ok [("original", dt ++ "_{year}.csv")] := by
  unfold find_dataset scrapeItems
  rw [foldlM_processItem_no_qualify dt (chooseDelimiter dt)
    (page.filter (fun it => it.hasStrong)) []
    (fun it hit =>
      hno it (List.mem_filter.mp hit).1 (List.mem_filter.mp hit).2)]
  simp [Except.map, dictInsert]

theorem foldlM_processItem_none_delim (dt : String) :
    ∀ (l : List LiItem) (acc : List (String × String)),
      l.foldlM (processItem dt none) acc =
        if l.any (fun it => pyStartsWith it.text (pyRemoveSuffix dt "aberta"))
        then .error .unboundLocal
        else .ok acc := by
  intro l
  induction l with
  | nil => intro acc; rfl
  | cons a l ih =>
    intro acc
    rw [List.foldlM_cons]
    by_cases ha : pyStartsWith a.text (pyRemoveSuffix dt "aberta") = true
    · have : processItem dt none acc a = .error .unboundLocal := by
        unfold processItem; rw [ha]; simp
      rw [this]
      simp [List.any_cons, ha, Bind.bind, Except.bind]
    · have hfa : pyStartsWith a.text (pyRemoveSuffix dt "aberta") = false :=
        Bool.eq_false_iff.mpr ha
      have : processItem dt none acc a = .ok acc := by
        unfold processItem; rw [hfa]; rfl
      rw [this]
      simp only [List.any_cons, hfa, Bool.false_or]
      exact ih acc

theorem dictInsert_mem (d : List (String × String)) (k v : String) :
    (k, v) ∈ dictInsert d k v := by
  unfold dictInsert
  split
  · rename_i hany
    obtain ⟨p, hp, hpk⟩ := List.any_eq_true.mp hany
    exact List.mem_map.mpr ⟨p, hp, by simp [hpk]⟩
  · simp

theorem dictInsert_append_of_not_mem (d : List (String × String)) (k v : String)
    (h : ∀ p ∈ d, p.1 ≠ k) : dictInsert d k v = d ++ [(k, v)] := by
  unfold dictInsert
  rw [if_neg]
  intro hany
  obtain ⟨p, hp, hpk⟩ := List.any_eq_true.mp hany
  exact h p hp (by simpa using hpk)

theorem filterMap_fst_of_all_some (l : List Int) (f : Int → Option Table × String)
    (h : ∀ y ∈ l, (f y).fst ≠ none) :
    l.filterMap (fun y => (f y).fst) =
      l.map (fun y => ((f y).fst).getD ⟨[], []⟩) := by
  induction l with
  | nil => rfl
  | cons a l ih =>
    simp only [List.filterMap_cons, List.map_cons]
    cases hfa : (f a).fst with
    | none => exact absurd hfa (h a (by simp))
    | some t =>
      rw [ih (fun y hy => h y (by simp [hy]))]
      simp [hfa]

theorem startsWith_of_data_prefix {p m : String} (h : p.data <+: m.data) :
    pyStartsWith m p = true := by
  unfold pyStartsWith
  exact List.isPrefixOf_iff_prefix.mpr h

/-- A log line of the shape `A ++ ty ++ B` contains `ty` and starts with
any prefix `p` of `A`. -/
theorem log_mark (p A B ty : String) (hp : p.data <+: A.data) :
    ty.data <:+: (A ++ ty ++ B).data ∧ pyStartsWith (A ++ ty ++ B) p = true := by
  constructor
  · exact ⟨A.data, B.data, by simp [String.data_append]⟩
  · apply startsWith_of_data_prefix
    have h1 : A.data <+: (A ++ ty ++ B).data := by
      simp only [String.data_append, List.append_assoc]
      exact List.prefix_append _ _
    exact hp.trans h1

/-- Every failing year's log line mentions the year and is an error line
(it starts with `"Error"` or `"Unexpected error"`, never `"Finished"`). -/
theorem yearResult_fail_log {fetch : String → HttpResult} {b z c : String}
    {y : Int} (h : (yearResult fetch b z c y).fst = none) :
    (toString y).data <:+: ((yearResult fetch b z c y).snd).data
    ∧ (pyStartsWith ((yearResult fetch b z c y).snd) "Error" = true
       ∨ pyStartsWith ((yearResult fetch b z c y).snd) "Unexpected error" = true) := by
  simp only [yearResult] at h ⊢
  revert h
  cases hfr : fetch (b ++ formatYear z y) with
  | requestError e =>
    intro _
    dsimp only
    obtain ⟨h1, h2⟩ := log_mark "Error" "Error downloading data for year "
      (": " ++ e) (toString y) (by decide)
    exact ⟨h1, Or.inl h2⟩
  | success body =>
    cases body with
    | notZip =>
      intro _
      dsimp only
      obtain ⟨h1, h2⟩ := log_mark "Error" "Error unzipping file for year "
        "." (toString y) (by decide)
      exact ⟨h1, Or.inl h2⟩
    | zip members =>
      dsimp only
      cases hfind : members.find? (fun m => m.1 == formatYear c y) with
      | none =>
        intro _
        dsimp only
        obtain ⟨h1, h2⟩ := log_mark "Unexpected error" "Unexpected error for year "
          ": KeyError" (toString y) (by decide)
        exact ⟨h1, Or.inr h2⟩
      | some m =>
        dsimp only
        cases hp : parseLines m.2 with
        | none =>
          intro _
          dsimp only
          obtain ⟨h1, h2⟩ := log_mark "Unexpected error" "Unexpected error for year "
            ": ValueError" (toString y) (by decide)
          exact ⟨h1, Or.inr h2⟩
        | some t =>
          intro h
          dsimp only at h
          cases h

theorem quoteKeys_mem_substr {k : String} :
    ∀ ks : List String, k ∈ ks → k.data <:+: (quoteKeys ks).data
  | [], h => absurd h (List.not_mem_nil k)
  | [k'], h => by
    rcases List.mem_singleton.mp h with rfl
    show k.data <:+: (quoteKeys [k]).data
    simp only [quoteKeys]
    exact ⟨"\x27".data, "\x27".data, by simp [String.data_append]⟩
  | k' :: k'' :: rest, h => by
    rcases List.mem_cons.mp h with rfl | h2
    · show k.data <:+: (quoteKeys (k :: k'' :: rest)).data
      simp only [quoteKeys]
      exact ⟨"\x27".data, ("\x27, " ++ quoteKeys (k'' :: rest)).data,
        by simp [String.data_append]⟩
    · have ih := quoteKeys_mem_substr (k'' :: rest) h2
      show k.data <:+: (quoteKeys (k' :: k'' :: rest)).data
      simp only [quoteKeys]
      refine ih.trans ⟨("\x27" ++ k' ++ "\x27, ").data, [], ?_⟩
      simp [String.data_append]

theorem notFoundMsg_mem_substr {k dataset : String} {keys : List String}
    (h : k ∈ keys) : k.data <:+: (notFoundMsg dataset keys).data := by
  refine (quoteKeys_mem_substr keys h).trans ?_
  unfold notFoundMsg pyListRepr
  exact ⟨("Dataset \x27" ++ dataset ++ "\x27 not found. Choose from: " ++ "[").data,
    "]".data, by simp [String.data_append]⟩

/-! ### Claim theorems -/

/-- C1 counterexample: on a listing page with zero qualifying list items
(the empty page), `find_dataset` does not return an empty mapping: it
returns the one-entry mapping with the unconditional `"original"` key. -/
theorem c1_counterexample :
    find_dataset "fca_cia_aberta" [] =
      .ok [("original", "fca_cia_aberta_{year}.csv")]
    ∧ [("original", "fca_cia_aberta_{year}.csv")] ≠ ([] : List (String × String)) :=
  ⟨rfl, by simp⟩

/-- C1 (amended): for every listing page containing zero qualifying list
items, catalog discovery returns, without raising, the mapping containing
exactly the single unconditional entry `"original" ↦ "<form_type>_{year}.csv"`
(not an empty mapping). -/
theorem c1_no_qualifying_items (dt : String) (page : List LiItem)
    (hno : ∀ it ∈ page, it.hasStrong = true →
      pyStartsWith it.text (pyRemoveSuffix dt "aberta") = false) :
    find_dataset dt page = .ok [("original", dt ++ "_{year}.csv")] :=
  find_dataset_no_qualify dt page hno

theorem c1_witness :
    find_dataset "fca_cia_aberta" [⟨false, "fca_cia_aberta_geral(x"⟩] =
      .ok [("original", "fca_cia_aberta_{year}.csv")] :=
  c1_no_qualifying_items "fca_cia_aberta" [⟨false, "fca_cia_aberta_geral(x"⟩]
    (by decide)

/-- C2: the Unified Table returned by `download_data` has zero rows and
zero columns if and only if no year in the requested range was
successfully fetched and parsed. -/
theorem c2_empty_iff_no_success (fetch : String → HttpResult) (b z c : String)
    (s e : Int) :
    ((download_data fetch s e b z c).table.header = []
      ∧ (download_data fetch s e b z c).table.rows = [])
    ↔ ∀ y ∈ intRange s e, (yearResult fetch b z c y).fst = none := by
  rw [download_data_table]
  constructor
  · intro hemp y hy
    by_contra hne
    obtain ⟨t, ht⟩ := Option.ne_none_iff_exists.mp hne
    have hmem : t ∈ (intRange s e).filterMap
        (fun y2 => (yearResult fetch b z c y2).fst) :=
      List.mem_filterMap.mpr ⟨y, hy, ht.symm⟩
    rcases hfm : (intRange s e).filterMap
        (fun y2 => (yearResult fetch b z c y2).fst) with _ | ⟨t0, rest⟩
    · rw [hfm] at hmem; cases hmem
    · rw [hfm] at hemp
      have ht0 : t0 ∈ (intRange s e).filterMap
          (fun y2 => (yearResult fetch b z c y2).fst) := by rw [hfm]; simp
      obtain ⟨y0, _, hty0⟩ := List.mem_filterMap.mp ht0
      exact concatTables_cons_header_ne_nil rest
        (yearResult_some_header_ne_nil hty0) hemp.1
  · intro hall
    rw [List.filterMap_eq_nil_iff.mpr hall]
    exact ⟨rfl, rfl⟩

theorem c2_witness :
    (download_data fetchAllFail 2020 2022 "B/" "doc_{year}.zip" "doc_{year}.csv").table.header = []
    ∧ (download_data fetchAllFail 2020 2022 "B/" "doc_{year}.zip" "doc_{year}.csv").table.rows = [] :=
  (c2_empty_iff_no_success fetchAllFail "B/" "doc_{year}.zip" "doc_{year}.csv"
    2020 2022).mpr (by decide)

/-- C3: with `start == end` the result is the empty table, zero network
fetches are performed (no URL is requested), and in general the iterated
years are exactly `start, start+1, …, end-1` in ascending order. -/
theorem c3_empty_range_and_order (fetch : String → HttpResult) (b z c : String)
    (s e : Int) :
    download_data fetch s s b z c = { table := ⟨[], []⟩, logs := [], fetched := [] }
    ∧ List.Pairwise (· < ·) (intRange s e)
    ∧ (∀ y : Int, y ∈ intRange s e ↔ s ≤ y ∧ y < e) := by
  refine ⟨?_, ?_, ?_⟩
  · have h0 : intRange s s = [] := by simp [intRange]
    simp [download_data, h0, concatTables]
  · unfold intRange
    rw [List.pairwise_map]
    exact (List.pairwise_lt_range _).imp
      (fun hab => by simp only [Int.ofNat_eq_coe]; omega)
  · intro y
    unfold intRange
    constructor
    · intro hy
      obtain ⟨i, hi, hiy⟩ := List.mem_map.mp hy
      rw [List.mem_range] at hi
      simp only [Int.ofNat_eq_coe] at hiy
      omega
    · intro hy
      refine List.mem_map.mpr ⟨(y - s).toNat, List.mem_range.mpr (by omega), ?_⟩
      simp only [Int.ofNat_eq_coe]
      omega

theorem c3_witness :
    download_data exFetch 2020 2020 "B/" "doc_{year}.zip" "doc_{year}.csv" =
      { table := ⟨[], []⟩, logs := [], fetched := [] } :=
  (c3_empty_range_and_order exFetch "B/" "doc_{year}.zip" "doc_{year}.csv"
    2020 2020).1

/-- C6: for a sub-dataset key absent from the catalog, `get_data` fails
immediately with a `ValueError` whose message contains every valid key,
and performs no network fetch (the fetched-URL list is empty). -/
theorem c6_unknown_key (fetch : String → HttpResult)
    (ds : List (String × String)) (b z dataset : String) (s e : Int)
    (hmiss : ds.find? (fun p => p.1 == dataset) = none) :
    get_data fetch (some ds) b z dataset s e =
      (.error (.valueError (notFoundMsg dataset (ds.map Prod.fst))), [])
    ∧ ∀ k ∈ ds.map Prod.fst,
        k.data <:+: (notFoundMsg dataset (ds.map Prod.fst)).data := by
  constructor
  · simp [get_data, hmiss]
  · intro k hk
    exact notFoundMsg_mem_substr hk

theorem c6_witness :
    get_data exFetch (some [("a", "t1"), ("b", "t2")]) "B/" "z.zip" "zzz" 2020 2022 =
      (.error (.valueError
        (notFoundMsg "zzz" ([("a", "t1"), ("b", "t2")].map Prod.fst))), []) :=
  (c6_unknown_key exFetch [("a", "t1"), ("b", "t2")] "B/" "z.zip" "zzz"
    2020 2022 (by decide)).1

/-- C8 counterexample: for the form type `"xyz"` (outside both recognized
families) and a page with no qualifying item, `find_dataset` does not
fail at all: it returns a catalog (the `"original"` entry), so discovery
of an unrecognized family neither fails fast nor avoids producing a
catalog. -/
theorem c8_counterexample :
    chooseDelimiter "xyz" = none
    ∧ find_dataset "xyz" [] = .ok [("original", "xyz_{year}.csv")] :=
  ⟨rfl, rfl⟩

/-- C8 (amended): for a form type outside both recognized families no
delimiter is assigned; `find_dataset` raises (`UnboundLocalError`, after
the page fetch) exactly when the page contains at least one qualifying
list item, and otherwise still produces the one-entry catalog. -/
theorem c8_unrecognized_family (dt : String) (page : List LiItem)
    (hnone : chooseDelimiter dt = none) :
    (find_dataset dt page = .error .unboundLocal ↔
      ∃ it ∈ page, it.hasStrong = true
        ∧ pyStartsWith it.text (pyRemoveSuffix dt "aberta") = true)
    ∧ ((∀ it ∈ page, it.hasStrong = true →
          pyStartsWith it.text (pyRemoveSuffix dt "aberta") = false) →
        find_dataset dt page = .ok [("original", dt ++ "_{year}.csv")]) := by
  constructor
  · unfold find_dataset scrapeItems
    rw [hnone, foldlM_processItem_none_delim]
    by_cases hany : (page.filter (fun it => it.hasStrong)).any
        (fun it => pyStartsWith it.text (pyRemoveSuffix dt "aberta")) = true
    · rw [if_pos hany]
      constructor
      · intro _
        obtain ⟨it, hit, hstart⟩ := List.any_eq_true.mp hany
        exact ⟨it, (List.mem_filter.mp hit).1, (List.mem_filter.mp hit).2, hstart⟩
      · intro _; rfl
    · rw [if_neg hany]
      constructor
      · intro h; exact absurd h (by simp [Except.map])
      · rintro ⟨it, hpage, hstrong, hstart⟩
        exact absurd (List.any_eq_true.mpr
          ⟨it, List.mem_filter.mpr ⟨hpage, hstrong⟩, hstart⟩) hany
  · exact find_dataset_no_qualify dt page

theorem c8_witness :
    find_dataset "xyz" [⟨true, "xyzfoo"⟩] = .error .unboundLocal :=
  ((c8_unrecognized_family "xyz" [⟨true, "xyzfoo"⟩] rfl).1).mpr
    ⟨⟨true, "xyzfoo"⟩, by simp, rfl, by decide⟩

/-- C9 counterexample: when a scraped entry's key is itself `"original"`,
the final `dataset["original"] = ...` assignment overwrites that entry in
place, so the `"original"` entry is not positioned after all scraped
entries (here it is first, not last). -/
theorem c9_counterexample :
    find_dataset "fca_cia_aberta"
      [⟨true, "fca_cia_aberta_original(x"⟩, ⟨true, "fca_cia_aberta_geral(x"⟩] =
      .ok [("original", "fca_cia_aberta_{year}.csv"),
           ("geral", "fca_cia_aberta_geral_{year}.csv")]
    ∧ ([("original", "fca_cia_aberta_{year}.csv"),
        ("geral", "fca_cia_aberta_geral_{year}.csv")] : List (String × String)).getLast?
      = some ("geral", "fca_cia_aberta_geral_{year}.csv") :=
  ⟨rfl, rfl⟩

/-- C9 (amended): whenever the scraping loop returns a mapping `m` (rather
than raising), `find_dataset` returns `m` with `"original"` assigned to
`"<form_type>_{year}.csv"`; that entry is always present, and it is
appended after all scraped entries whenever no scraped key is itself
`"original"` (otherwise the earlier position is kept, value overwritten). -/
theorem c9_original_entry (dt : String) (page : List LiItem)
    (m : List (String × String)) (hs : scrapeItems dt page = .ok m) :
    find_dataset dt page = .ok (dictInsert m "original" (dt ++ "_{year}.csv"))
    ∧ ("original", dt ++ "_{year}.csv") ∈ dictInsert m "original" (dt ++ "_{year}.csv")
    ∧ ((∀ p ∈ m, p.1 ≠ "original") →
        dictInsert m "original" (dt ++ "_{year}.csv") =
          m ++ [("original", dt ++ "_{year}.csv")]) := by
  refine ⟨?_, dictInsert_mem m _ _, fun h => dictInsert_append_of_not_mem m _ _ h⟩
  unfold find_dataset
  rw [hs]
  rfl

theorem c9_witness :
    find_dataset "fca_cia_aberta" [⟨true, "fca_cia_aberta_geral(x"⟩] =
      .ok (dictInsert [("geral", "fca_cia_aberta_geral_{year}.csv")]
        "original" "fca_cia_aberta_{year}.csv") :=
  (c9_original_entry "fca_cia_aberta" [⟨true, "fca_cia_aberta_geral(x"⟩]
    [("geral", "fca_cia_aberta_geral_{year}.csv")] rfl).1

/-- C4: failures are caught per year and never propagated
(`download_data` is total and logs exactly one line per year); a failing
year's log line contains the year and is an error line; and the table's
rows come only from the successful years (its row count is the sum of the
successfully-parsed tables' row counts). -/
theorem c4_mixed_failures_logged (fetch : String → HttpResult) (b z c : String)
    (s e y : Int) (_hy : y ∈ intRange s e)
    (hfail : (yearResult fetch b z c y).fst = none) :
    (download_data fetch s e b z c).logs =
      (intRange s e).map (fun y2 => (yearResult fetch b z c y2).snd)
    ∧ (toString y).data <:+: ((yearResult fetch b z c y).snd).data
    ∧ (pyStartsWith ((yearResult fetch b z c y).snd) "Error" = true
       ∨ pyStartsWith ((yearResult fetch b z c y).snd) "Unexpected error" = true)
    ∧ (download_data fetch s e b z c).table.rows.length =
        (((intRange s e).filterMap (fun y2 => (yearResult fetch b z c y2).fst)).map
          (fun t => t.rows.length)).sum := by
  obtain ⟨h1, h2⟩ := yearResult_fail_log hfail
  refine ⟨download_data_logs fetch s e b z c, h1, h2, ?_⟩
  rw [download_data_table]
  exact concatTables_rows_length _

theorem c4_witness :
    ((2021 ∈ intRange 2020 2022)
      ∧ (yearResult exFetch "B/" "doc_{year}.zip" "doc_{year}.csv" 2021).fst = none)
    ∧ ((download_data exFetch 2020 2022 "B/" "doc_{year}.zip" "doc_{year}.csv").logs =
        (intRange 2020 2022).map
          (fun y2 => (yearResult exFetch "B/" "doc_{year}.zip" "doc_{year}.csv" y2).snd)
      ∧ (toString (2021 : Int)).data <:+:
          ((yearResult exFetch "B/" "doc_{year}.zip" "doc_{year}.csv" 2021).snd).data
      ∧ (pyStartsWith ((yearResult exFetch "B/" "doc_{year}.zip" "doc_{year}.csv" 2021).snd)
            "Error" = true
         ∨ pyStartsWith ((yearResult exFetch "B/" "doc_{year}.zip" "doc_{year}.csv" 2021).snd)
            "Unexpected error" = true)
      ∧ (download_data exFetch 2020 2022 "B/" "doc_{year}.zip" "doc_{year}.csv").table.rows.length =
          (((intRange 2020 2022).filterMap
            (fun y2 => (yearResult exFetch "B/" "doc_{year}.zip" "doc_{year}.csv" y2).fst)).map
            (fun t => t.rows.length)).sum) :=
  ⟨⟨by decide, by decide⟩,
    c4_mixed_failures_logged exFetch "B/" "doc_{year}.zip" "doc_{year}.csv"
      2020 2022 2021 (by decide) (by decide)⟩

/-- C5: when every year in the range succeeds, the table's row count is
the sum of the per-year row counts; and (under the spec's cross-year
assumption that headers are identical) the rows are exactly the per-year
rows concatenated in ascending year order, each year's block preserving
its original relative order, positions (= reset indices) `0, 1, …`. -/
theorem c5_all_success_concat (fetch : String → HttpResult) (b z c : String)
    (s e : Int)
    (hall : ∀ y ∈ intRange s e, (yearResult fetch b z c y).fst ≠ none) :
    (download_data fetch s e b z c).table.rows.length =
      ((intRange s e).map
        (fun y => (((yearResult fetch b z c y).fst).getD ⟨[], []⟩).rows.length)).sum
    ∧ ((∀ y1 ∈ intRange s e, ∀ y2 ∈ intRange s e,
          (((yearResult fetch b z c y1).fst).getD ⟨[], []⟩).header =
            (((yearResult fetch b z c y2).fst).getD ⟨[], []⟩).header) →
        (download_data fetch s e b z c).table.rows =
          (intRange s e).flatMap
            (fun y => (((yearResult fetch b z c y).fst).getD ⟨[], []⟩).rows)) := by
  have hfm := filterMap_fst_of_all_some (intRange s e) (yearResult fetch b z c) hall
  constructor
  · rw [download_data_table, hfm, concatTables_rows_length, List.map_map]
    rfl
  · intro hheads
    rw [download_data_table, hfm]
    cases hrange : intRange s e with
    | nil => simp [concatTables]
    | cons y0 ys =>
      rw [List.map_cons]
      simp only [concatTables]
      rw [if_pos]
      · simp [List.flatMap_def, List.map_map, Function.comp_def]
      · rw [List.all_eq_true]
        intro u hu
        obtain ⟨y', hy', rfl⟩ := List.mem_map.mp hu
        rw [beq_iff_eq]
        exact hheads y' (by rw [hrange]; simp [hy']) y0 (by rw [hrange]; simp)

theorem c5_witness :
    (download_data exFetch 2020 2021 "B/" "doc_{year}.zip" "doc_{year}.csv").table.rows.length = 3 :=
  ((c5_all_success_concat exFetch "B/" "doc_{year}.zip" "doc_{year}.csv"
    2020 2021 (by decide)).1).trans (by decide)

/-- C7: for a qualifying item whose text contains the family delimiter,
the code's slice `text[:text.find(delimiter)]` is exactly truncation at
the first delimiter occurrence, and after stripping `"(anteriormente"`
the key/template classification is: full form type occurring as a
substring ⇒ key = text minus the `"<form_type>_"` prefix with template
`"<truncated_text>_{year}.csv"`, otherwise key = text minus the
qualifier-stripped prefix with template `"<form_type>_<key>_{year}.csv"`.
In particular the spec's scenario yields key `"geral"` and template
`"fca_cia_aberta_geral_{year}.csv"`. -/
theorem c7_classification (dt delim text0 : String)
    (hdelim : chooseDelimiter dt = some delim)
    (hq : pyStartsWith text0 (pyRemoveSuffix dt "aberta") = true)
    (hocc : pyContains text0 delim = true) :
    (pySliceTo text0 (pyFind text0 delim) = specTruncAtFirst text0 delim
    ∧ find_dataset dt [⟨true, text0⟩] =
        .ok (dictInsert
          (let t := pyReplace (specTruncAtFirst text0 delim) "(anteriormente" ""
           if pyContains t dt then
             [(pyRemovePrefix t (dt ++ "_"), t ++ "_{year}.csv")]
           else
             [(pyRemovePrefix t (pyRemoveSuffix dt "aberta"),
               dt ++ "_" ++ pyRemovePrefix t (pyRemoveSuffix dt "aberta") ++ "_{year}.csv")])
          "original" (dt ++ "_{year}.csv")))
    ∧ find_dataset "fca_cia_aberta"
        [⟨true, "fca_cia_aberta_geral(anteriormente fca_cia_aberta_old)"⟩] =
      .ok [("geral", "fca_cia_aberta_geral_{year}.csv"),
           ("original", "fca_cia_aberta_{year}.csv")] := by
  have hslice := pySliceTo_trunc_of_contains hocc
  refine ⟨⟨hslice, ?_⟩, by rfl⟩
  unfold find_dataset scrapeItems
  rw [hdelim]
  simp only [List.filter_cons, List.filter_nil, if_true]
  simp only [List.foldlM_cons, List.foldlM_nil]
  have hpi : processItem dt (some delim) [] ⟨true, text0⟩ =
      .ok (classifyItem dt delim [] text0) := by
    unfold processItem
    rw [hq]
    rfl
  rw [hpi]
  have hcl : classifyItem dt delim [] text0 =
      (let t := pyReplace (specTruncAtFirst text0 delim) "(anteriormente" ""
       if pyContains t dt then
         [(pyRemovePrefix t (dt ++ "_"), t ++ "_{year}.csv")]
       else
         [(pyRemovePrefix t (pyRemoveSuffix dt "aberta"),
           dt ++ "_" ++ pyRemovePrefix t (pyRemoveSuffix dt "aberta") ++ "_{year}.csv")]) := by
    unfold classifyItem
    dsimp only
    rw [hslice]
    split
    · simp [dictInsert]
    · simp [dictInsert]
  rw [hcl]
  rfl

theorem c7_witness :
    find_dataset "fca_cia_aberta"
      [⟨true, "fca_cia_aberta_geral(anteriormente fca_cia_aberta_old)"⟩] =
      .ok [("geral", "fca_cia_aberta_geral_{year}.csv"),
           ("original", "fca_cia_aberta_{year}.csv")] :=
  (c7_classification "fca_cia_aberta" "("
    "fca_cia_aberta_geral(anteriormente fca_cia_aberta_old)"
    (by decide) (by decide) (by decide)).2

/-- C10: for a qualifying item whose text does not contain the family
delimiter, `text.find(delimiter)` is `-1` and the Python slice
`text[:-1]` removes exactly the final character, so the key and template
are derived from the item text with its last character dropped. -/
theorem c10_no_delimiter_drops_last (dt delim text0 : String)
    (hdelim : chooseDelimiter dt = some delim)
    (hq : pyStartsWith text0 (pyRemoveSuffix dt "aberta") = true)
    (hnocc : pyContains text0 delim = false) :
    pyFind text0 delim = -1
    ∧ pySliceTo text0 (pyFind text0 delim) = String.mk text0.data.dropLast
    ∧ find_dataset dt [⟨true, text0⟩] =
        .ok (dictInsert
          (let t := pyReplace (String.mk text0.data.dropLast) "(anteriormente" ""
           if pyContains t dt then
             [(pyRemovePrefix t (dt ++ "_"), t ++ "_{year}.csv")]
           else
             [(pyRemovePrefix t (pyRemoveSuffix dt "aberta"),
               dt ++ "_" ++ pyRemovePrefix t (pyRemoveSuffix dt "aberta") ++ "_{year}.csv")])
          "original" (dt ++ "_{year}.csv")) := by
  have hfind := pyFind_of_not_contains hnocc
  have hslice : pySliceTo text0 (pyFind text0 delim) = String.mk text0.data.dropLast := by
    rw [hfind]
    exact pySliceTo_neg_one text0
  refine ⟨hfind, hslice, ?_⟩
  unfold find_dataset scrapeItems
  rw [hdelim]
  simp only [List.filter_cons, List.filter_nil, if_true]
  simp only [List.foldlM_cons, List.foldlM_nil]
  have hpi : processItem dt (some delim) [] ⟨true, text0⟩ =
      .ok (classifyItem dt delim [] text0) := by
    unfold processItem
    rw [hq]
    rfl
  rw [hpi]
  have hcl : classifyItem dt delim [] text0 =
      (let t := pyReplace (String.mk text0.data.dropLast) "(anteriormente" ""
       if pyContains t dt then
         [(pyRemovePrefix t (dt ++ "_"), t ++ "_{year}.csv")]
       else
         [(pyRemovePrefix t (pyRemoveSuffix dt "aberta"),
           dt ++ "_" ++ pyRemovePrefix t (pyRemoveSuffix dt "aberta") ++ "_{year}.csv")]) := by
    unfold classifyItem
    dsimp only
    rw [hslice]
    split
    · simp [dictInsert]
    · simp [dictInsert]
  rw [hcl]
  rfl

theorem c10_witness :
    (pyFind "fca_cia_aberta_geral" "(" = -1
    ∧ pySliceTo "fca_cia_aberta_geral" (pyFind "fca_cia_aberta_geral" "(") =
        String.mk "fca_cia_aberta_geral".data.dropLast)
    ∧ find_dataset "fca_cia_aberta" [⟨true, "fca_cia_aberta_geral"⟩] =
        .ok [("gera", "fca_cia_aberta_gera_{year}.csv"),
             ("original", "fca_cia_aberta_{year}.csv")] := by
  obtain ⟨h1, h2, h3⟩ := c10_no_delimiter_drops_last "fca_cia_aberta" "("
    "fca_cia_aberta_geral" (by decide) (by decide) (by decide)
  refine ⟨⟨h1, h2⟩, ?_⟩
  rw [h3]
  rfl

end CVM
